import Mathlib

/-!
Verification of the orchestration logic of the two Amazon Personalize
immersion-day notebooks (01_Data_Layer.ipynb, 02_Training_Layer.ipynb).

The notebooks' own logic consists of (a) multi-resource polling loops that
iterate over a reversed live list of resource identifiers, removing an
identifier once its describe call reports a terminal status; (b) single
resource wait loops; (c) resource-creation cells that either have no
exception handler or catch only the already-exists error and recover via a
list-and-match-by-name lookup; (d) one small metadata lookup helper.

All of these are embedded below as executable Lean functions, translated
from the notebook cells.  The wall-clock timeout (while time.time() <
max_time, with a fixed sleep per round) is modelled as a bound on the
number of polling rounds; round counters stand for the successive poll
times.
-/

namespace ImmersionDay

/-- The record nested under the resource key of a describe response (for
example under the key datasetImportJob, solutionVersion or campaign): a
status string and an optional failure reason.  Per the service API, the
failure reason, when present, lives inside this nested record. -/
structure ResourceRecord where
  status : String
  failureReason : Option String
deriving Repr, DecidableEq

/-- A describe response as the notebook code sees it: the nested resource
record (read by response[resourceKey][statusKey]) together with the result
of response.get applied to the failureReason key on the TOP level of the
response dictionary, which is what the polling loops actually read.  The
service only populates the nested record, so for every response the
service can actually return, topLevelFailureReason is none. -/
structure DescribeResponse where
  resource : ResourceRecord
  topLevelFailureReason : Option String
deriving Repr, DecidableEq

/-- Events printed by the polling loops, one constructor per print
statement of the multi-resource loop bodies. -/
inductive PollEvent where
  | succeeded (arn : String)
  | failed (arn : String)
  | reason (text : String)
  | stillInProgress
  | allEnded
deriving Repr, DecidableEq

/-- A status is terminal when it is ACTIVE or CREATE FAILED; this is the
disjunction tested by every wait loop in the notebooks. -/
def isTerminal (s : String) : Bool :=
  s == "ACTIVE" || s == "CREATE FAILED"

/-- The two reason-printing lines of the CREATE FAILED branch: if
response.get(failureReason) is truthy (in Python, a present and nonempty
string), print the reason.  The loops apply this to the top level of the
describe response. -/
def reasonEvents (resp : DescribeResponse) : List PollEvent :=
  match resp.topLevelFailureReason with
  | some r => if r.isEmpty then [] else [PollEvent.reason r]
  | none => []

/-- One step budget of the inner for loop over reversed(arns).  Python's
reversed() on a list is a live iterator holding an index that starts at
len - 1 and decrements; it stops as soon as the index falls outside the
current list.  The argument i is the count of positions still to visit
(the iterator is about to read index i - 1); list.remove of the
just-described identifier is List.erase.  Returns the final list, the
trace of identifiers passed to the describe call, and the printed events,
mirroring the import-job, solution-version and campaign wait cells. -/
def pollRoundGo (describe : String → DescribeResponse) :
    Nat → List String → List String → List PollEvent →
    List String × List String × List PollEvent
  | 0, lst, d, log => (lst, d, log)
  | i + 1, lst, d, log =>
    if h : i < lst.length then
      let arn := lst[i]
      let resp := describe arn
      if resp.resource.status == "ACTIVE" then
        pollRoundGo describe i (lst.erase arn) (d ++ [arn])
          (log ++ [PollEvent.succeeded arn])
      else if resp.resource.status == "CREATE FAILED" then
        pollRoundGo describe i (lst.erase arn) (d ++ [arn])
          (log ++ PollEvent.failed arn :: reasonEvents resp)
      else
        pollRoundGo describe i lst (d ++ [arn]) log
    else
      (lst, d, log)

/-- One full pass of the for loop over reversed(arns). -/
def pollRound (describe : String → DescribeResponse) (lst : List String) :
    List String × List String × List PollEvent :=
  pollRoundGo describe lst.length lst [] []

/-- The events the loop body prints for one described identifier,
according to the status branch taken. -/
def eventsFor (describe : String → DescribeResponse) (arn : String) :
    List PollEvent :=
  if (describe arn).resource.status == "ACTIVE" then [PollEvent.succeeded arn]
  else if (describe arn).resource.status == "CREATE FAILED" then
    PollEvent.failed arn :: reasonEvents (describe arn)
  else []

/-- Concatenated per-identifier events over a visit order. -/
def roundLog (describe : String → DescribeResponse) : List String → List PollEvent
  | [] => []
  | a :: rest => eventsFor describe a ++ roundLog describe rest

theorem roundLog_append (describe : String → DescribeResponse)
    (l₁ l₂ : List String) :
    roundLog describe (l₁ ++ l₂) = roundLog describe l₁ ++ roundLog describe l₂ := by
  induction l₁ with
  | nil => simp [roundLog]
  | cons a rest ih => simp [roundLog, ih]

/-- Closed form of one pass of the reversed-iteration loop on a
duplicate-free list: starting with i positions to visit on pre ++ suf
where pre has length i, the pass visits exactly the members of pre, from
the last to the first, removes those whose status is terminal, and leaves
suf (the already-visited tail) untouched. -/
theorem pollRoundGo_spec (describe : String → DescribeResponse)
    (pre : List String) :
    ∀ (suf : List String) (d : List String) (log : List PollEvent),
    (pre ++ suf).Nodup →
    pollRoundGo describe pre.length (pre ++ suf) d log =
      (pre.filter (fun a => ! isTerminal (describe a).resource.status) ++ suf,
       d ++ pre.reverse,
       log ++ roundLog describe pre.reverse) := by
  induction pre using List.reverseRecOn with
  | nil =>
    intro suf d log _
    simp [pollRoundGo, roundLog]
  | append_singleton ps a ih =>
    intro suf d log hnd
    have hlen : (ps ++ [a]).length = ps.length + 1 := by simp
    rw [hlen]
    have hassoc : (ps ++ [a]) ++ suf = ps ++ (a :: suf) := by simp
    rw [hassoc] at hnd ⊢
    have hi : ps.length < (ps ++ (a :: suf)).length := by
      simp only [List.length_append, List.length_cons]
      omega
    have hget : (ps ++ (a :: suf))[ps.length] = a := by
      rw [List.getElem_append_right (Nat.le_refl _)]
      simp
    have hanotps : a ∉ ps := by
      have := hnd
      rw [List.nodup_append] at this
      exact fun hmem => (this.2.2 hmem) (List.mem_cons_self a suf)
    have herase : (ps ++ (a :: suf)).erase a = ps ++ suf := by
      rw [List.erase_append_right _ hanotps, List.erase_cons_head]
    have hndrest : (ps ++ suf).Nodup := by
      refine List.Nodup.sublist ?_ hnd
      exact List.Sublist.append_left (List.sublist_cons_self a suf) ps
    simp only [pollRoundGo, hi, dif_pos, hget]
    by_cases hA : (describe a).resource.status == "ACTIVE"
    · rw [if_pos hA, herase, ih suf (d ++ [a]) (log ++ [PollEvent.succeeded a]) hndrest]
      have hterm : isTerminal (describe a).resource.status = true := by
        simp [isTerminal, hA]
      have hev : eventsFor describe a = [PollEvent.succeeded a] := by
        simp [eventsFor, hA]
      simp [hterm, roundLog_append, roundLog, hev]
    · rw [if_neg hA]
      by_cases hF : (describe a).resource.status == "CREATE FAILED"
      · rw [if_pos hF, herase,
          ih suf (d ++ [a]) (log ++ PollEvent.failed a :: reasonEvents (describe a)) hndrest]
        have hterm : isTerminal (describe a).resource.status = true := by
          simp [isTerminal, hF]
        have hev : eventsFor describe a = PollEvent.failed a :: reasonEvents (describe a) := by
          simp [eventsFor, hA, hF]
        simp [hterm, roundLog_append, roundLog, hev]
      · rw [if_neg hF]
        have hassoc2 : ps ++ (a :: suf) = ps ++ ([a] ++ suf) := by simp
        rw [hassoc2, ih ([a] ++ suf) (d ++ [a]) log (by simpa using hnd)]
        have hterm : isTerminal (describe a).resource.status = false := by
          simp [isTerminal]
          exact ⟨by simpa using hA, by simpa using hF⟩
        have hev : eventsFor describe a = [] := by
          simp [eventsFor, hA, hF]
        simp [hterm, roundLog_append, roundLog, hev]

/-- One pass of the loop on a duplicate-free pending list: the surviving
list is the non-terminal identifiers in order, every pending identifier is
described exactly once (the trace is the list reversed), and the log is
the concatenation of each identifier's branch events in visit order. -/
theorem pollRound_spec (describe : String → DescribeResponse)
    (lst : List String) (hnd : lst.Nodup) :
    pollRound describe lst =
      (lst.filter (fun a => ! isTerminal (describe a).resource.status),
       lst.reverse,
       roundLog describe lst.reverse) := by
  have h := pollRoundGo_spec describe lst [] [] [] (by simpa using hnd)
  simpa [pollRound] using h

/-- Result of a whole multi-resource wait cell: the identifiers still
pending when the loop exits, the full trace of identifiers passed to the
describe call, everything printed, and the number of rounds performed. -/
structure PollResult where
  pending : List String
  described : List String
  log : List PollEvent
  rounds : Nat
deriving Repr, DecidableEq

/-- The outer while loop of the multi-resource wait cells.  The wall-clock
guard (while time.time() < max_time, with a 60 second sleep whenever jobs
remain) is modelled by the fuel argument, the number of rounds the clock
allows; r counts the rounds already performed and indexes the per-round
status reader.  After a round, if identifiers remain the loop prints the
still-in-progress line and sleeps, otherwise it prints the all-ended line
and breaks.  Exhausted fuel is the time guard failing: the loop just ends,
pending identifiers and all. -/
def pollLoopGo (describeAt : Nat → String → DescribeResponse) :
    Nat → Nat → List String → List String → List PollEvent → PollResult
  | 0, r, lst, d, log => ⟨lst, d, log, r⟩
  | fuel + 1, r, lst, d, log =>
    let res := pollRound (describeAt r) lst
    if res.1.length > 0 then
      pollLoopGo describeAt fuel (r + 1) res.1 (d ++ res.2.1)
        (log ++ res.2.2 ++ [PollEvent.stillInProgress])
    else
      ⟨res.1, d ++ res.2.1, log ++ res.2.2 ++ [PollEvent.allEnded], r + 1⟩

/-- A multi-resource wait cell: poll the pending identifiers until all are
terminal or the allowed number of rounds (3 hours at one round per minute,
so 180 for the notebook cells) runs out. -/
def pollLoop (describeAt : Nat → String → DescribeResponse)
    (maxRounds : Nat) (lst : List String) : PollResult :=
  pollLoopGo describeAt maxRounds 0 lst [] []

theorem pollLoopGo_acc (describeAt : Nat → String → DescribeResponse)
    (fuel : Nat) :
    ∀ (r : Nat) (lst d : List String) (log : List PollEvent),
    pollLoopGo describeAt fuel r lst d log =
      ⟨(pollLoopGo describeAt fuel r lst [] []).pending,
       d ++ (pollLoopGo describeAt fuel r lst [] []).described,
       log ++ (pollLoopGo describeAt fuel r lst [] []).log,
       (pollLoopGo describeAt fuel r lst [] []).rounds⟩ := by
  induction fuel with
  | zero => intro r lst d log; simp [pollLoopGo]
  | succ fuel ih =>
    intro r lst d log
    simp only [pollLoopGo, List.nil_append]
    by_cases h : (pollRound (describeAt r) lst).1.length > 0
    · rw [if_pos h, if_pos h,
        ih (r + 1) (pollRound (describeAt r) lst).1
          (d ++ (pollRound (describeAt r) lst).2.1)
          (log ++ (pollRound (describeAt r) lst).2.2 ++ [PollEvent.stillInProgress]),
        ih (r + 1) (pollRound (describeAt r) lst).1
          ((pollRound (describeAt r) lst).2.1)
          ((pollRound (describeAt r) lst).2.2 ++ [PollEvent.stillInProgress])]
      simp
    · rw [if_neg h, if_neg h]
      simp

/-- Events for an identifier are its outcome events or a reason line. -/
theorem mem_eventsFor (describe : String → DescribeResponse) (e : PollEvent)
    (b : String) (h : e ∈ eventsFor describe b) :
    e = PollEvent.succeeded b ∨ e = PollEvent.failed b ∨
      ∃ t, e = PollEvent.reason t := by
  unfold eventsFor at h
  by_cases hA : (describe b).resource.status == "ACTIVE"
  · rw [if_pos hA] at h
    simp at h
    exact Or.inl h
  · rw [if_neg hA] at h
    by_cases hF : (describe b).resource.status == "CREATE FAILED"
    · rw [if_pos hF] at h
      rcases List.mem_cons.mp h with h | h
      · exact Or.inr (Or.inl h)
      · unfold reasonEvents at h
        cases hr : (describe b).topLevelFailureReason with
        | some t =>
          rw [hr] at h
          by_cases he : t.isEmpty
          · simp [he] at h
          · simp [he] at h
            exact Or.inr (Or.inr ⟨t, h⟩)
        | none =>
          rw [hr] at h
          simp at h
    · rw [if_neg hF] at h
      simp at h

theorem succeeded_mem_eventsFor (describe : String → DescribeResponse)
    (a b : String) (h : PollEvent.succeeded a ∈ eventsFor describe b) : a = b := by
  rcases mem_eventsFor describe _ b h with h | h | ⟨t, h⟩ <;> simp_all

theorem failed_mem_eventsFor (describe : String → DescribeResponse)
    (a b : String) (h : PollEvent.failed a ∈ eventsFor describe b) : a = b := by
  rcases mem_eventsFor describe _ b h with h | h | ⟨t, h⟩ <;> simp_all

theorem allEnded_not_mem_eventsFor (describe : String → DescribeResponse)
    (b : String) : PollEvent.allEnded ∉ eventsFor describe b := by
  intro h
  rcases mem_eventsFor describe _ b h with h | h | ⟨t, h⟩ <;> simp_all

theorem succeeded_mem_roundLog (describe : String → DescribeResponse)
    (a : String) (l : List String)
    (h : PollEvent.succeeded a ∈ roundLog describe l) : a ∈ l := by
  induction l with
  | nil => simp [roundLog] at h
  | cons b rest ih =>
    simp only [roundLog, List.mem_append] at h
    rcases h with h | h
    · exact (succeeded_mem_eventsFor describe a b h) ▸ List.mem_cons_self b rest
    · exact List.mem_cons_of_mem b (ih h)

theorem failed_mem_roundLog (describe : String → DescribeResponse)
    (a : String) (l : List String)
    (h : PollEvent.failed a ∈ roundLog describe l) : a ∈ l := by
  induction l with
  | nil => simp [roundLog] at h
  | cons b rest ih =>
    simp only [roundLog, List.mem_append] at h
    rcases h with h | h
    · exact (failed_mem_eventsFor describe a b h) ▸ List.mem_cons_self b rest
    · exact List.mem_cons_of_mem b (ih h)

theorem allEnded_not_mem_roundLog (describe : String → DescribeResponse)
    (l : List String) : PollEvent.allEnded ∉ roundLog describe l := by
  induction l with
  | nil => simp [roundLog]
  | cons b rest ih =>
    simp only [roundLog, List.mem_append]
    intro h
    rcases h with h | h
    · exact allEnded_not_mem_eventsFor describe b h
    · exact ih h

/-- An identifier whose status is terminal gets exactly its outcome event. -/
theorem outcome_mem_roundLog (describe : String → DescribeResponse)
    (a : String) (l : List String) (ha : a ∈ l)
    (ht : isTerminal (describe a).resource.status = true) :
    PollEvent.succeeded a ∈ roundLog describe l ∨
      PollEvent.failed a ∈ roundLog describe l := by
  induction l with
  | nil => cases ha
  | cons b rest ih =>
    rcases List.mem_cons.mp ha with rfl | ha
    · by_cases hA : (describe a).resource.status == "ACTIVE"
      · left
        simp only [roundLog, List.mem_append]
        left
        simp [eventsFor, hA]
      · have hF : (describe a).resource.status == "CREATE FAILED" := by
          unfold isTerminal at ht
          rcases Bool.or_eq_true_iff.mp ht with h | h
          · exact absurd h hA
          · exact h
        right
        simp only [roundLog, List.mem_append]
        left
        simp [eventsFor, hA, hF]
    · rcases ih ha with h | h
      · left; simp only [roundLog, List.mem_append]; right; exact h
      · right; simp only [roundLog, List.mem_append]; right; exact h

theorem mem_roundLog (describe : String → DescribeResponse) (e : PollEvent)
    (l : List String) (h : e ∈ roundLog describe l) :
    ∃ b ∈ l, e ∈ eventsFor describe b := by
  induction l with
  | nil => simp [roundLog] at h
  | cons b rest ih =>
    simp only [roundLog, List.mem_append] at h
    rcases h with h | h
    · exact ⟨b, List.mem_cons_self b rest, h⟩
    · obtain ⟨c, hc, he⟩ := ih h
      exact ⟨c, List.mem_cons_of_mem b hc, he⟩

/-- A non-terminal status produces no printed event. -/
theorem eventsFor_eq_nil (describe : String → DescribeResponse) (a : String)
    (h : isTerminal (describe a).resource.status = false) :
    eventsFor describe a = [] := by
  unfold isTerminal at h
  rw [Bool.or_eq_false_iff] at h
  simp [eventsFor, h.1, h.2]

/-- A CREATE FAILED status prints the failed line for its identifier. -/
theorem failed_mem_roundLog_of_status (describe : String → DescribeResponse)
    (a : String) (l : List String) (ha : a ∈ l)
    (h : (describe a).resource.status = "CREATE FAILED") :
    PollEvent.failed a ∈ roundLog describe l := by
  induction l with
  | nil => cases ha
  | cons b rest ih =>
    rcases List.mem_cons.mp ha with rfl | ha2
    · have h1 : ((describe a).resource.status == "ACTIVE") = false := by
        rw [h]; decide
      have h2 : ((describe a).resource.status == "CREATE FAILED") = true := by
        rw [h]; decide
      simp only [roundLog, List.mem_append]
      left
      simp [eventsFor, h1, h2]
    · simp only [roundLog, List.mem_append]
      right
      exact ih ha2

theorem count_eq_one_of_nodup_mem (l : List String) (a : String)
    (hnd : l.Nodup) (ha : a ∈ l) : l.count a = 1 := by
  induction l with
  | nil => cases ha
  | cons b rest ih =>
    rw [List.count_cons]
    rcases List.mem_cons.mp ha with rfl | ha2
    · have hnm : a ∉ rest := (List.nodup_cons.mp hnd).1
      rw [List.count_eq_zero.mpr hnm]
      simp
    · have hb : b ≠ a := by
        rintro rfl
        exact (List.nodup_cons.mp hnd).1 ha2
      rw [ih (List.nodup_cons.mp hnd).2 ha2]
      simp [hb]

/-- An identifier absent from the pending list is never described, never
classified, and never reappears in the loop from that point on. -/
theorem pollLoopGo_not_mem (describeAt : Nat → String → DescribeResponse)
    (fuel : Nat) :
    ∀ (r : Nat) (lst : List String) (a : String),
    lst.Nodup → a ∉ lst →
    a ∉ (pollLoopGo describeAt fuel r lst [] []).pending ∧
    a ∉ (pollLoopGo describeAt fuel r lst [] []).described ∧
    PollEvent.succeeded a ∉ (pollLoopGo describeAt fuel r lst [] []).log ∧
    PollEvent.failed a ∉ (pollLoopGo describeAt fuel r lst [] []).log := by
  induction fuel with
  | zero =>
    intro r lst a hnd ha
    simp only [pollLoopGo]
    exact ⟨ha, by simp, by simp, by simp⟩
  | succ fuel ih =>
    intro r lst a hnd ha
    simp only [pollLoopGo]
    rw [pollRound_spec _ _ hnd]
    simp only
    have hafilter : a ∉ lst.filter
        (fun x => ! isTerminal ((describeAt r) x).resource.status) := by
      intro hmem
      exact ha (List.mem_of_mem_filter hmem)
    have hndfilter : (lst.filter
        (fun x => ! isTerminal ((describeAt r) x).resource.status)).Nodup :=
      List.Nodup.filter _ hnd
    have harev : a ∉ lst.reverse := by
      rw [List.mem_reverse]; exact ha
    have hsucclog : PollEvent.succeeded a ∉
        roundLog (describeAt r) lst.reverse := by
      intro hmem
      obtain ⟨b, hb, he⟩ := mem_roundLog _ _ _ hmem
      exact harev ((succeeded_mem_eventsFor _ a b he) ▸ hb)
    have hfaillog : PollEvent.failed a ∉ roundLog (describeAt r) lst.reverse := by
      intro hmem
      obtain ⟨b, hb, he⟩ := mem_roundLog _ _ _ hmem
      exact harev ((failed_mem_eventsFor _ a b he) ▸ hb)
    by_cases h : (lst.filter
        (fun x => ! isTerminal ((describeAt r) x).resource.status)).length > 0
    · rw [if_pos h]
      rw [pollLoopGo_acc]
      obtain ⟨ihp, ihd, ihs, ihf⟩ := ih (r + 1) _ a hndfilter hafilter
      refine ⟨ihp, ?_, ?_, ?_⟩
      · simp only [List.nil_append, List.mem_append]
        rintro (hmem | hmem)
        · exact harev hmem
        · exact ihd hmem
      · simp only [List.nil_append, List.append_assoc, List.mem_append]
        rintro (hmem | hmem | hmem)
        · exact hsucclog hmem
        · simp at hmem
        · exact ihs hmem
      · simp only [List.nil_append, List.append_assoc, List.mem_append]
        rintro (hmem | hmem | hmem)
        · exact hfaillog hmem
        · simp at hmem
        · exact ihf hmem
    · rw [if_neg h]
      refine ⟨hafilter, by simpa using harev, ?_, ?_⟩
      · simp only [List.nil_append, List.mem_append]
        rintro (hmem | hmem)
        · exact hsucclog hmem
        · simp at hmem
      · simp only [List.nil_append, List.mem_append]
        rintro (hmem | hmem)
        · exact hfaillog hmem
        · simp at hmem

/-- When every pending identifier's status is terminal from round R on and
the clock allows more than R rounds, the loop drains the pending list,
breaks through the all-ended branch, and has printed an outcome for every
identifier. -/
theorem pollLoopGo_all_terminal (describeAt : Nat → String → DescribeResponse)
    (R : Nat) (fuel : Nat) :
    ∀ (r : Nat) (lst : List String),
    lst.Nodup → 1 ≤ fuel → R < r + fuel →
    (∀ a ∈ lst, ∀ q, R ≤ q →
      isTerminal ((describeAt q) a).resource.status = true) →
    (pollLoopGo describeAt fuel r lst [] []).pending = [] ∧
    PollEvent.allEnded ∈ (pollLoopGo describeAt fuel r lst [] []).log ∧
    ∀ a ∈ lst,
      PollEvent.succeeded a ∈ (pollLoopGo describeAt fuel r lst [] []).log ∨
      PollEvent.failed a ∈ (pollLoopGo describeAt fuel r lst [] []).log := by
  induction fuel with
  | zero => intro r lst _ h1 _ _; omega
  | succ fuel ih =>
    intro r lst hnd _ hR hterm
    simp only [pollLoopGo]
    rw [pollRound_spec _ _ hnd]
    simp only
    by_cases h : (lst.filter
        (fun x => ! isTerminal ((describeAt r) x).resource.status)).length > 0
    · rw [if_pos h]
      obtain ⟨b, hbmem⟩ := List.exists_mem_of_length_pos h
      have hbnontermin : (! isTerminal ((describeAt r) b).resource.status) = true :=
        (List.mem_filter.mp hbmem).2
      have hblst : b ∈ lst := (List.mem_filter.mp hbmem).1
      have hrR : r < R := by
        by_contra hcon
        push_neg at hcon
        have := hterm b hblst r hcon
        rw [this] at hbnontermin
        simp at hbnontermin
      have hfuel1 : 1 ≤ fuel := by omega
      have hRnext : R < (r + 1) + fuel := by omega
      have hndfilter : (lst.filter
          (fun x => ! isTerminal ((describeAt r) x).resource.status)).Nodup :=
        List.Nodup.filter _ hnd
      have htermfilter : ∀ a ∈ lst.filter
          (fun x => ! isTerminal ((describeAt r) x).resource.status),
          ∀ q, R ≤ q → isTerminal ((describeAt q) a).resource.status = true :=
        fun a hmem => hterm a (List.mem_of_mem_filter hmem)
      obtain ⟨ihp, ihe, iho⟩ := ih (r + 1) _ hndfilter hfuel1 hRnext htermfilter
      rw [pollLoopGo_acc]
      refine ⟨ihp, ?_, ?_⟩
      · simp only [List.nil_append, List.append_assoc, List.mem_append]
        right; right
        exact ihe
      · intro a ha
        by_cases hat : isTerminal ((describeAt r) a).resource.status = true
        · have hout := outcome_mem_roundLog (describeAt r) a lst.reverse
            (by rw [List.mem_reverse]; exact ha) hat
          rcases hout with hout | hout
          · left
            simp only [List.nil_append, List.append_assoc, List.mem_append]
            left; exact hout
          · right
            simp only [List.nil_append, List.append_assoc, List.mem_append]
            left; exact hout
        · have hfalse : isTerminal ((describeAt r) a).resource.status = false :=
            Bool.eq_false_iff.mpr hat
          have hmemf : a ∈ lst.filter
              (fun x => ! isTerminal ((describeAt r) x).resource.status) :=
            List.mem_filter.mpr ⟨ha, by simp [hfalse]⟩
          rcases iho a hmemf with hout | hout
          · left
            simp only [List.nil_append, List.append_assoc, List.mem_append]
            right; right; exact hout
          · right
            simp only [List.nil_append, List.append_assoc, List.mem_append]
            right; right; exact hout
    · rw [if_neg h]
      have hfe : lst.filter
          (fun x => ! isTerminal ((describeAt r) x).resource.status) = [] := by
        rcases List.eq_nil_or_concat (lst.filter
          (fun x => ! isTerminal ((describeAt r) x).resource.status)) with he | ⟨l2, b, hcc⟩
        · exact he
        · exfalso
          apply h
          rw [hcc]
          simp
      refine ⟨hfe, ?_, ?_⟩
      · simp
      · intro a ha
        have hat : isTerminal ((describeAt r) a).resource.status = true := by
          by_contra hcon
          have hfalse : isTerminal ((describeAt r) a).resource.status = false :=
            Bool.eq_false_iff.mpr hcon
          have : a ∈ lst.filter
              (fun x => ! isTerminal ((describeAt r) x).resource.status) :=
            List.mem_filter.mpr ⟨ha, by simp [hfalse]⟩
          rw [hfe] at this
          cases this
        have hout := outcome_mem_roundLog (describeAt r) a lst.reverse
          (by rw [List.mem_reverse]; exact ha) hat
        rcases hout with hout | hout
        · left
          simp only [List.nil_append, List.mem_append]
          left; exact hout
        · right
          simp only [List.nil_append, List.mem_append]
          left; exact hout

/-- When one identifier's status is never terminal, the loop keeps it
pending until the clock runs out, performing every allowed round, never
breaking through the all-ended branch, and never printing an outcome for
that identifier. -/
theorem pollLoopGo_never_terminal (describeAt : Nat → String → DescribeResponse)
    (a : String)
    (hk : ∀ q, isTerminal ((describeAt q) a).resource.status = false)
    (fuel : Nat) :
    ∀ (r : Nat) (lst : List String), lst.Nodup → a ∈ lst →
    a ∈ (pollLoopGo describeAt fuel r lst [] []).pending ∧
    (pollLoopGo describeAt fuel r lst [] []).rounds = r + fuel ∧
    PollEvent.allEnded ∉ (pollLoopGo describeAt fuel r lst [] []).log ∧
    PollEvent.succeeded a ∉ (pollLoopGo describeAt fuel r lst [] []).log ∧
    PollEvent.failed a ∉ (pollLoopGo describeAt fuel r lst [] []).log := by
  induction fuel with
  | zero =>
    intro r lst hnd ha
    simp only [pollLoopGo]
    exact ⟨ha, by omega, by simp, by simp, by simp⟩
  | succ fuel ih =>
    intro r lst hnd ha
    simp only [pollLoopGo]
    rw [pollRound_spec _ _ hnd]
    simp only
    have hmemf : a ∈ lst.filter
        (fun x => ! isTerminal ((describeAt r) x).resource.status) :=
      List.mem_filter.mpr ⟨ha, by simp [hk r]⟩
    have hpos : (lst.filter
        (fun x => ! isTerminal ((describeAt r) x).resource.status)).length > 0 :=
      List.length_pos_of_mem hmemf
    rw [if_pos hpos]
    have hndfilter : (lst.filter
        (fun x => ! isTerminal ((describeAt r) x).resource.status)).Nodup :=
      List.Nodup.filter _ hnd
    obtain ⟨ihp, ihr, ihe, ihs, ihf⟩ := ih (r + 1) _ hndfilter hmemf
    rw [pollLoopGo_acc]
    have hsucclog : PollEvent.succeeded a ∉ roundLog (describeAt r) lst.reverse := by
      intro hmem
      obtain ⟨b, _, he⟩ := mem_roundLog _ _ _ hmem
      have hab := succeeded_mem_eventsFor _ a b he
      rw [← hab, eventsFor_eq_nil _ a (hk r)] at he
      cases he
    have hfaillog : PollEvent.failed a ∉ roundLog (describeAt r) lst.reverse := by
      intro hmem
      obtain ⟨b, _, he⟩ := mem_roundLog _ _ _ hmem
      have hab := failed_mem_eventsFor _ a b he
      rw [← hab, eventsFor_eq_nil _ a (hk r)] at he
      cases he
    refine ⟨ihp, by rw [ihr]; omega, ?_, ?_, ?_⟩
    · simp only [List.nil_append, List.append_assoc, List.mem_append]
      rintro (hmem | hmem | hmem)
      · exact allEnded_not_mem_roundLog _ _ hmem
      · simp at hmem
      · exact ihe hmem
    · simp only [List.nil_append, List.append_assoc, List.mem_append]
      rintro (hmem | hmem | hmem)
      · exact hsucclog hmem
      · simp at hmem
      · exact ihs hmem
    · simp only [List.nil_append, List.append_assoc, List.mem_append]
      rintro (hmem | hmem | hmem)
      · exact hfaillog hmem
      · simp at hmem
      · exact ihf hmem

/-- The single-resource wait cells (dataset group, 15 s cadence, 3 hour
cap; filter, 1 hour cap): status = None, then while the clock allows,
describe the resource, remember its status, break when ACTIVE or CREATE
FAILED, else sleep.  Fuel models the remaining clock; the result is the
final value of the status variable when the loop ends, by break or by the
guard failing. -/
def waitLoopGo (statusAt : Nat → String) :
    Nat → Nat → Option String → Option String
  | 0, _, status => status
  | fuel + 1, r, _ =>
    let s := statusAt r
    if s == "ACTIVE" || s == "CREATE FAILED" then some s
    else waitLoopGo statusAt fuel (r + 1) (some s)

/-- A whole single-resource wait cell. -/
def waitLoop (statusAt : Nat → String) (maxIter : Nat) : Option String :=
  waitLoopGo statusAt maxIter 0 none

theorem waitLoopGo_never_terminal (statusAt : Nat → String)
    (hk : ∀ q, isTerminal (statusAt q) = false) (fuel : Nat) :
    ∀ (r : Nat) (prev : Option String),
    (∀ s, prev = some s → isTerminal s = false) →
    ∀ s, waitLoopGo statusAt fuel r prev = some s → isTerminal s = false := by
  induction fuel with
  | zero =>
    intro r prev hprev s hs
    exact hprev s hs
  | succ fuel ih =>
    intro r prev _ s hs
    have hcond : (statusAt r == "ACTIVE" || statusAt r == "CREATE FAILED") = false := by
      have := hk r
      unfold isTerminal at this
      exact this
    simp only [waitLoopGo, hcond] at hs
    rw [if_neg (by simp)] at hs
    exact ih (r + 1) (some (statusAt r))
      (fun t ht => by cases ht; exact hk r) s hs

/-- Sample describe responses used by the concrete witnesses below: an
ACTIVE resource, a CREATE FAILED resource whose nested record carries a
failure reason, and a still-pending resource.  In each one the top level
of the response carries no failureReason key, as in the actual service
responses. -/
def activeResp : DescribeResponse := ⟨⟨"ACTIVE", none⟩, none⟩

def pendingResp : DescribeResponse := ⟨⟨"CREATE PENDING", none⟩, none⟩

def failedMismatchResp : DescribeResponse :=
  ⟨⟨"CREATE FAILED", some "schema mismatch"⟩, none⟩

def failedQuotaResp : DescribeResponse :=
  ⟨⟨"CREATE FAILED", some "quota exceeded"⟩, none⟩

/-- C2: for every duplicate-free set of pending identifiers whose status
readers are all terminal from some round R on, with the clock allowing
more than R rounds, the multi-resource polling loop drains the pending
list and breaks before the maximum wait (the all-ended branch runs), and
its printed log enumerates an outcome for every identifier. -/
theorem pollLoop_terminal_readers_terminate_and_enumerate
    (describeAt : Nat → String → DescribeResponse) (maxRounds R : Nat)
    (lst : List String) (hnd : lst.Nodup) (hR : R < maxRounds)
    (hterm : ∀ a ∈ lst, ∀ q, R ≤ q →
      isTerminal ((describeAt q) a).resource.status = true) :
    (pollLoop describeAt maxRounds lst).pending = [] ∧
    PollEvent.allEnded ∈ (pollLoop describeAt maxRounds lst).log ∧
    ∀ a ∈ lst,
      PollEvent.succeeded a ∈ (pollLoop describeAt maxRounds lst).log ∨
      PollEvent.failed a ∈ (pollLoop describeAt maxRounds lst).log :=
  pollLoopGo_all_terminal describeAt R maxRounds 0 lst hnd (by omega) (by omega)
    hterm

def c2DescribeAt : Nat → String → DescribeResponse :=
  fun _ arn => if arn == "job-c" then failedQuotaResp else activeResp

theorem pollLoop_terminal_readers_terminate_and_enumerate_witness :
    (["job-a", "job-b", "job-c"] : List String).Nodup ∧ 0 < 180 ∧
    ((pollLoop c2DescribeAt 180 ["job-a", "job-b", "job-c"]).pending = [] ∧
     PollEvent.allEnded ∈ (pollLoop c2DescribeAt 180 ["job-a", "job-b", "job-c"]).log ∧
     ∀ a ∈ (["job-a", "job-b", "job-c"] : List String),
       PollEvent.succeeded a ∈ (pollLoop c2DescribeAt 180 ["job-a", "job-b", "job-c"]).log ∨
       PollEvent.failed a ∈ (pollLoop c2DescribeAt 180 ["job-a", "job-b", "job-c"]).log) :=
  ⟨by decide, by decide,
    pollLoop_terminal_readers_terminate_and_enumerate c2DescribeAt 180 0
      ["job-a", "job-b", "job-c"] (by decide) (by decide)
      (by intro a ha q hq; fin_cases ha <;> rfl)⟩

/-- C3: in the multi-resource polling loop, a pending identifier whose
status reader returns CREATE FAILED is classified as failed (the failed
line is printed for it), is described exactly once over the whole run
(never retried), and ends up off the pending list. -/
theorem pollLoop_create_failed_classified_once_never_retried
    (describeAt : Nat → String → DescribeResponse) (maxRounds : Nat)
    (lst : List String) (a : String) (hnd : lst.Nodup) (ha : a ∈ lst)
    (hfail : ∀ q, ((describeAt q) a).resource.status = "CREATE FAILED")
    (hfuel : 1 ≤ maxRounds) :
    (pollLoop describeAt maxRounds lst).described.count a = 1 ∧
    PollEvent.failed a ∈ (pollLoop describeAt maxRounds lst).log ∧
    a ∉ (pollLoop describeAt maxRounds lst).pending := by
  obtain ⟨fuel, rfl⟩ : ∃ f, maxRounds = f + 1 := ⟨maxRounds - 1, by omega⟩
  unfold pollLoop
  simp only [pollLoopGo]
  rw [pollRound_spec _ _ hnd]
  simp only
  have hterm0 : isTerminal ((describeAt 0) a).resource.status = true := by
    rw [hfail 0]; decide
  have hnotf : a ∉ lst.filter
      (fun x => ! isTerminal ((describeAt 0) x).resource.status) := by
    intro hmem
    have := (List.mem_filter.mp hmem).2
    rw [hterm0] at this
    simp at this
  have hfailedlog : PollEvent.failed a ∈ roundLog (describeAt 0) lst.reverse :=
    failed_mem_roundLog_of_status _ a _ (by rw [List.mem_reverse]; exact ha)
      (hfail 0)
  have hcount : lst.reverse.count a = 1 := by
    rw [List.count_reverse]
    exact count_eq_one_of_nodup_mem lst a hnd ha
  by_cases h : (lst.filter
      (fun x => ! isTerminal ((describeAt 0) x).resource.status)).length > 0
  · rw [if_pos h]
    rw [pollLoopGo_acc]
    obtain ⟨ihp, ihd, ihs, ihf⟩ := pollLoopGo_not_mem describeAt fuel 1 _ a
      (List.Nodup.filter _ hnd) hnotf
    refine ⟨?_, ?_, ihp⟩
    · simp only [List.nil_append]
      rw [List.count_append, hcount, List.count_eq_zero.mpr ihd]
    · simp only [List.nil_append, List.append_assoc, List.mem_append]
      left; exact hfailedlog
  · rw [if_neg h]
    refine ⟨?_, ?_, hnotf⟩
    · simp only [List.nil_append]
      exact hcount
    · simp only [List.nil_append, List.mem_append]
      left; exact hfailedlog

def c3DescribeAt : Nat → String → DescribeResponse :=
  fun _ arn => if arn == "job-b" then failedQuotaResp else pendingResp

theorem pollLoop_create_failed_classified_once_never_retried_witness :
    (["job-a", "job-b"] : List String).Nodup ∧ 1 ≤ 180 ∧
    ((pollLoop c3DescribeAt 180 ["job-a", "job-b"]).described.count "job-b" = 1 ∧
     PollEvent.failed "job-b" ∈ (pollLoop c3DescribeAt 180 ["job-a", "job-b"]).log ∧
     "job-b" ∉ (pollLoop c3DescribeAt 180 ["job-a", "job-b"]).pending) :=
  ⟨by decide, by decide,
    pollLoop_create_failed_classified_once_never_retried c3DescribeAt 180
      ["job-a", "job-b"] "job-b" (by decide) (by decide)
      (by intro q; rfl) (by decide)⟩

/-- C4: in one round of the multi-resource polling loop, which removes
terminal identifiers from the working list while iterating over that same
list through reversed(), every identifier pending at the start of the
round is passed to the describe call exactly once, neither skipped nor
described twice, for every pattern of terminal and non-terminal
statuses. -/
theorem pollRound_describes_each_pending_exactly_once
    (describe : String → DescribeResponse) (lst : List String)
    (hnd : lst.Nodup) (a : String) (ha : a ∈ lst) :
    ((pollRound describe lst).2.1).count a = 1 := by
  rw [pollRound_spec describe lst hnd]
  simp only
  rw [List.count_reverse]
  exact count_eq_one_of_nodup_mem lst a hnd ha

def c4Describe : String → DescribeResponse :=
  fun arn =>
    if arn == "job-a" then activeResp
    else if arn == "job-b" then pendingResp
    else failedQuotaResp

theorem pollRound_describes_each_pending_exactly_once_witness :
    (["job-a", "job-b", "job-c"] : List String).Nodup ∧
    "job-b" ∈ (["job-a", "job-b", "job-c"] : List String) ∧
    ((pollRound c4Describe ["job-a", "job-b", "job-c"]).2.1).count "job-b" = 1 :=
  ⟨by decide, by decide,
    pollRound_describes_each_pending_exactly_once c4Describe
      ["job-a", "job-b", "job-c"] (by decide) "job-b" (by decide)⟩

/-- C6: when a status reader never returns a terminal value, the
single-resource wait loop runs out its clock and falls through holding a
non-terminal status, raising nothing; and the multi-resource loop runs
every allowed round and then exits with the identifier still pending,
never printing the all-ended line and never printing an outcome (failure
or success) for it: execution continues with no signal that the resource
did not stabilize. -/
theorem wait_loops_timeout_silently
    (statusAt : Nat → String) (maxIter : Nat)
    (describeAt : Nat → String → DescribeResponse) (maxRounds : Nat)
    (lst : List String) (a : String)
    (h1 : ∀ q, isTerminal (statusAt q) = false)
    (h2 : ∀ q, isTerminal ((describeAt q) a).resource.status = false)
    (hnd : lst.Nodup) (ha : a ∈ lst) :
    (∀ s, waitLoop statusAt maxIter = some s → isTerminal s = false) ∧
    a ∈ (pollLoop describeAt maxRounds lst).pending ∧
    (pollLoop describeAt maxRounds lst).rounds = maxRounds ∧
    PollEvent.allEnded ∉ (pollLoop describeAt maxRounds lst).log ∧
    PollEvent.succeeded a ∉ (pollLoop describeAt maxRounds lst).log ∧
    PollEvent.failed a ∉ (pollLoop describeAt maxRounds lst).log := by
  have hmain := pollLoopGo_never_terminal describeAt a h2 maxRounds 0 lst hnd ha
  refine ⟨?_, hmain.1, ?_, hmain.2.2.1, hmain.2.2.2.1, hmain.2.2.2.2⟩
  · intro s hs
    exact waitLoopGo_never_terminal statusAt h1 maxIter 0 none (by simp) s hs
  · show (pollLoopGo describeAt maxRounds 0 lst [] []).rounds = maxRounds
    rw [hmain.2.1]
    omega

def c6StatusAt : Nat → String := fun _ => "CREATE PENDING"

def c6DescribeAt : Nat → String → DescribeResponse := fun _ _ => pendingResp

theorem wait_loops_timeout_silently_witness :
    (["grp-a"] : List String).Nodup ∧
    ((∀ s, waitLoop c6StatusAt 720 = some s → isTerminal s = false) ∧
     "grp-a" ∈ (pollLoop c6DescribeAt 180 ["grp-a"]).pending ∧
     (pollLoop c6DescribeAt 180 ["grp-a"]).rounds = 180 ∧
     PollEvent.allEnded ∉ (pollLoop c6DescribeAt 180 ["grp-a"]).log ∧
     PollEvent.succeeded "grp-a" ∉ (pollLoop c6DescribeAt 180 ["grp-a"]).log ∧
     PollEvent.failed "grp-a" ∉ (pollLoop c6DescribeAt 180 ["grp-a"]).log) :=
  ⟨by decide,
    wait_loops_timeout_silently c6StatusAt 720 c6DescribeAt 180 ["grp-a"] "grp-a"
      (by intro q; rfl) (by intro q; rfl) (by decide) (by decide)⟩

def c1DescribeAt : Nat → String → DescribeResponse :=
  fun _ arn => if arn == "C" then failedMismatchResp else activeResp

/-- C1: on the spec's scenario — import jobs A, B, C; the first poll
returns ACTIVE for A and B and CREATE FAILED for C, the reason
"schema mismatch" sitting in the nested datasetImportJob record — the
loop does exit after exactly one outer iteration with A and B logged as
succeeded and C logged as failed, but the reason "schema mismatch" is
never logged: the code reads the failureReason key from the top level of
the describe response, where the service never places it, so the recorded
outcome for C lacks the reason the claim expects. -/
theorem importJobLoop_scenario_drops_failure_reason :
    pollLoop c1DescribeAt 180 ["A", "B", "C"] =
      ⟨[], ["C", "B", "A"],
       [PollEvent.failed "C", PollEvent.succeeded "B", PollEvent.succeeded "A",
        PollEvent.allEnded], 1⟩ ∧
    PollEvent.reason "schema mismatch" ∉
      (pollLoop c1DescribeAt 180 ["A", "B", "C"]).log :=
  ⟨by decide, by decide⟩

def c5Describe : String → DescribeResponse := fun _ => failedQuotaResp

/-- C5: a describe response carrying status CREATE FAILED together with a
failure reason in its nested resource record does not get that reason
logged: the loop prints only the failed line, because the code applies
response.get for the failureReason key to the top level of the response
dictionary while the service nests the reason inside the resource
record. -/
theorem pollRound_does_not_log_nested_failure_reason :
    failedQuotaResp.resource.failureReason = some "quota exceeded" ∧
    pollRound c5Describe ["J"] = ([], ["J"], [PollEvent.failed "J"]) ∧
    PollEvent.reason "quota exceeded" ∉ (pollRound c5Describe ["J"]).2.2 :=
  ⟨rfl, by decide, by decide⟩

/-- Errors a creation call can signal: the already-exists signal (the
ResourceAlreadyExistsException and EntityAlreadyExistsException classes
caught by the cells) or any other service error. -/
inductive ApiError where
  | alreadyExists
  | other (msg : String)
deriving Repr, DecidableEq

/-- The external service registry of named resources, as (name,
identifier) pairs in creation order. -/
abbrev Registry := List (String × String)

/-- Modelled from the spec: a creation call either succeeds, returning a
fresh identifier and recording it under the requested name, or signals
already-exists when the name is taken; the list call returns the recorded
pairs. -/
def createNamed (reg : Registry) (nm fresh : String) :
    Except ApiError (String × Registry) :=
  if reg.any (fun p => p.1 == nm) then Except.error ApiError.alreadyExists
  else Except.ok (fresh, reg ++ [(nm, fresh)])

/-- The for loop of the except branch of the schema cells: scan the
listed (name, identifier) pairs and overwrite the schema variable with
the identifier of every entry whose name matches, so the variable ends at
the last match, or keeps its previous value when nothing matches. -/
def lookupByName (listed : Registry) (nm : String) (prev : Option String) :
    Option String :=
  match ((listed.filter (fun p => p.1 == nm)).map Prod.snd).getLast? with
  | some arn => some arn
  | none => prev

/-- A schema creation cell over an abstract creation call: try
create_schema; on ResourceAlreadyExistsException recover through the
list-and-match-by-name lookup; any other exception has no handler and
propagates.  createName is the name passed to create_schema and
lookupName the name compared against the listing — identical strings in
the interactions and items cells, different strings (by the stray leading
r) in the users cell. -/
def schemaCellG (create : String → Except ApiError String) (listed : Registry)
    (createName lookupName : String) (prev : Option String) :
    Except ApiError (Option String) :=
  match create createName with
  | Except.ok arn => Except.ok (some arn)
  | Except.error ApiError.alreadyExists =>
      Except.ok (lookupByName listed lookupName prev)
  | Except.error e => Except.error e

/-- A schema creation cell run against the registry model of the service:
the cell logic of schemaCellG with the creation call instantiated to
createNamed, whose only error is already-exists, and the listing
instantiated to the registry.  Returns the final value of the schema
identifier variable and the registry after the cell. -/
def schemaCellS (reg : Registry) (createName lookupName fresh : String)
    (prev : Option String) : Option String × Registry :=
  match createNamed reg createName fresh with
  | Except.ok (arn, reg2) => (some arn, reg2)
  | Except.error _ => (lookupByName reg lookupName prev, reg)

/-- The IAM role creation cell: try iam.create_role; on
EntityAlreadyExistsException fall back to iam.get_role for the same role
name; any other error has no handler. -/
def roleCellG (createRole : String → Except ApiError String)
    (getRole : String → Option String) (roleName : String) :
    Except ApiError (Option String) :=
  match createRole roleName with
  | Except.ok arn => Except.ok (some arn)
  | Except.error ApiError.alreadyExists => Except.ok (getRole roleName)
  | Except.error e => Except.error e

/-- A creation cell with no try block around the call (dataset group,
datasets, import jobs, solutions, solution versions, campaigns, filter):
the cell's outcome is the call's outcome, so any error propagates to the
caller unchanged. -/
def noRecoverCell (call : Except ApiError String) : Except ApiError String :=
  call

def interactionsSchemaCreateName : String :=
  "personalize-immersion-day-retail-schema-interactions"

def usersSchemaCreateName : String :=
  "rpersonalize-immersion-day-retail-schema-users"

def usersSchemaLookupName : String :=
  "personalize-immersion-day-retail-schema-users"

theorem lookupByName_prev_or_listed (listed : Registry) (nm : String)
    (prev : Option String) :
    lookupByName listed nm prev = prev ∨
    ∃ x, lookupByName listed nm prev = some x ∧ (nm, x) ∈ listed := by
  unfold lookupByName
  cases hl : ((listed.filter (fun p => p.1 == nm)).map Prod.snd).getLast? with
  | none => left; rfl
  | some arn =>
    right
    refine ⟨arn, rfl, ?_⟩
    have hmem : arn ∈ (listed.filter (fun p => p.1 == nm)).map Prod.snd :=
      List.mem_of_getLast?_eq_some hl
    obtain ⟨p, hp, hsnd⟩ := List.mem_map.mp hmem
    have hfst : p.1 = nm := by
      have := (List.mem_filter.mp hp).2
      exact beq_iff_eq.mp this
    have : p = (nm, arn) := by
      cases p
      simp_all
    rw [← this]
    exact (List.mem_filter.mp hp).1

/-- C8: every resource-creation call either succeeds with the fresh
identifier, or signals already-exists and the cell recovers through the
list-and-match-by-name lookup (any identifier that lookup yields beyond
the variable's previous value is one listed under the lookup name), or
fails with some other error that no handler catches: the schema and role
cells re-raise it, and the cells without a try block return the call's
error unchanged. -/
theorem creation_calls_succeed_recover_or_propagate
    (create : String → Except ApiError String) (listed : Registry)
    (createName lookupName roleName : String) (prev : Option String)
    (getRole : String → Option String) :
    (∀ arn, create createName = Except.ok arn →
      schemaCellG create listed createName lookupName prev =
        Except.ok (some arn)) ∧
    (create createName = Except.error ApiError.alreadyExists →
      schemaCellG create listed createName lookupName prev =
        Except.ok (lookupByName listed lookupName prev) ∧
      (lookupByName listed lookupName prev = prev ∨
       ∃ x, lookupByName listed lookupName prev = some x ∧
         (lookupName, x) ∈ listed)) ∧
    (∀ msg, create createName = Except.error (ApiError.other msg) →
      schemaCellG create listed createName lookupName prev =
        Except.error (ApiError.other msg)) ∧
    (∀ arn, create roleName = Except.ok arn →
      roleCellG create getRole roleName = Except.ok (some arn)) ∧
    (create roleName = Except.error ApiError.alreadyExists →
      roleCellG create getRole roleName = Except.ok (getRole roleName)) ∧
    (∀ msg, create roleName = Except.error (ApiError.other msg) →
      roleCellG create getRole roleName =
        Except.error (ApiError.other msg)) ∧
    (∀ call : Except ApiError String, noRecoverCell call = call) := by
  refine ⟨?_, ?_, ?_, ?_, ?_, ?_, fun _ => rfl⟩
  · intro arn h
    unfold schemaCellG
    rw [h]
  · intro h
    unfold schemaCellG
    rw [h]
    exact ⟨rfl, lookupByName_prev_or_listed listed lookupName prev⟩
  · intro msg h
    unfold schemaCellG
    rw [h]
  · intro arn h
    unfold roleCellG
    rw [h]
  · intro h
    unfold roleCellG
    rw [h]
  · intro msg h
    unfold roleCellG
    rw [h]

def c8CreateOk : String → Except ApiError String :=
  fun _ => Except.ok "arn-fresh"

theorem creation_calls_succeed_recover_or_propagate_witness :
    schemaCellG c8CreateOk [("nm", "arn-old")] "nm" "nm" none =
      Except.ok (some "arn-fresh") ∧
    noRecoverCell (Except.error (ApiError.other "throttled")) =
      Except.error (ApiError.other "throttled") :=
  ⟨(creation_calls_succeed_recover_or_propagate c8CreateOk [("nm", "arn-old")]
      "nm" "nm" "role" none (fun _ => none)).1 "arn-fresh" rfl,
   (creation_calls_succeed_recover_or_propagate c8CreateOk [("nm", "arn-old")]
      "nm" "nm" "role" none (fun _ => none)).2.2.2.2.2.2
      (Except.error (ApiError.other "throttled"))⟩

/-- C7: a named resource created twice.  With the interactions schema
cell, whose create and lookup names are the same string, the first run
yields the fresh identifier and the second run recovers that same
identifier through the already-exists lookup, as the claim states.  With
the users schema cell the claim fails: the create call uses the
misspelled name rpersonalize-immersion-day-retail-schema-users while the
recovery lookup matches personalize-immersion-day-retail-schema-users, so
on the second run the already-exists branch runs but recovers no
identifier at all. -/
theorem schema_created_twice_users_lookup_misses :
    (schemaCellS [] interactionsSchemaCreateName interactionsSchemaCreateName
      "arn-int-1" none).1 = some "arn-int-1" ∧
    (schemaCellS
      (schemaCellS [] interactionsSchemaCreateName interactionsSchemaCreateName
        "arn-int-1" none).2
      interactionsSchemaCreateName interactionsSchemaCreateName
      "arn-int-2" none).1 = some "arn-int-1" ∧
    (schemaCellS [] usersSchemaCreateName usersSchemaLookupName
      "arn-users-1" none).1 = some "arn-users-1" ∧
    (schemaCellS
      (schemaCellS [] usersSchemaCreateName usersSchemaLookupName
        "arn-users-1" none).2
      usersSchemaCreateName usersSchemaLookupName "arn-users-2" none).1 =
      none :=
  ⟨by decide, by decide, by decide, by decide⟩

/-- The API calls of the two notebooks that create or poll asynchronous
resources, in cell order.  The which argument names the resource within
its kind.  The pollDataset constructor exists so the check below can even
ask for a dataset poll: no cell performs one. -/
inductive Step where
  | createDatasetGroup
  | pollDatasetGroup
  | createDataset (which : String)
  | pollDataset (which : String)
  | createImportJob (which : String)
  | pollImportJobs
  | createSolution (which : String)
  | createSolutionVersion (which : String)
  | pollSolutionVersions
  | createCampaign (which : String)
  | pollCampaigns
  | createFilter
  | pollFilter
deriving Repr, DecidableEq

/-- The asynchronous-resource creation and polling cells of
01_Data_Layer.ipynb followed by 02_Training_Layer.ipynb, in execution
order.  The synchronous cells between them (schema registration, S3
uploads, bucket policy, IAM role) create nothing asynchronous and are
omitted. -/
def notebookSteps : List Step := [
  Step.createDatasetGroup,
  Step.pollDatasetGroup,
  Step.createDataset "interactions",
  Step.createDataset "items",
  Step.createDataset "users",
  Step.createImportJob "interactions",
  Step.createImportJob "items",
  Step.createImportJob "users",
  Step.pollImportJobs,
  Step.createSolution "related",
  Step.createSolutionVersion "related",
  Step.createSolution "recommend",
  Step.createSolutionVersion "recommend",
  Step.createSolution "ranking",
  Step.createSolutionVersion "ranking",
  Step.pollSolutionVersions,
  Step.createCampaign "related",
  Step.createCampaign "recommend",
  Step.createCampaign "ranking",
  Step.pollCampaigns,
  Step.createFilter,
  Step.pollFilter ]

/-- The poll steps the claim requires before each dependent creation
call: creating a dataset, a solution or the filter passes the dataset
group identifier; creating an import job passes its dataset's identifier;
creating a campaign passes its solution version's identifier. -/
def prereqPollsOf : Step → List Step
  | Step.createDataset _ => [Step.pollDatasetGroup]
  | Step.createImportJob w => [Step.pollDataset w]
  | Step.createSolution _ => [Step.pollDatasetGroup]
  | Step.createCampaign _ => [Step.pollSolutionVersions]
  | Step.createFilter => [Step.pollDatasetGroup]
  | _ => []

/-- Check that along a step sequence every creation call is preceded by
the poll steps for the identifiers it uses. -/
def pollsPrecedeCreations (prereq : Step → List Step) :
    List Step → List Step → Bool
  | _, [] => true
  | seen, s :: rest =>
      (prereq s).all (fun p => seen.contains p) &&
        pollsPrecedeCreations prereq (seen ++ [s]) rest

/-- The prerequisites of the amended claim: identical except that the
creation of an import job only requires the dataset group poll, since
the notebooks never poll the datasets themselves. -/
def prereqPollsAmended : Step → List Step
  | Step.createDataset _ => [Step.pollDatasetGroup]
  | Step.createImportJob _ => [Step.pollDatasetGroup]
  | Step.createSolution _ => [Step.pollDatasetGroup]
  | Step.createCampaign _ => [Step.pollSolutionVersions]
  | Step.createFilter => [Step.pollDatasetGroup]
  | _ => []

/-- C9 is false on the notebooks: the polled-before-dependent-use check
fails on the actual cell sequence, because each import job is created
although its dataset is never polled to a terminal status — no dataset
poll exists anywhere, as the interactions case pinpoints. -/
theorem datasets_not_polled_before_import_jobs :
    pollsPrecedeCreations prereqPollsOf [] notebookSteps = false ∧
    Step.createImportJob "interactions" ∈ notebookSteps ∧
    Step.pollDataset "interactions" ∉ notebookSteps :=
  ⟨by decide, by decide, by decide⟩

/-- C9 as amended: every asynchronous entity other than the datasets is
polled to a terminal status before its identifier feeds a dependent
creation call — the dataset group before datasets, solutions and the
filter, the solution versions before the campaigns — while every import
job is created with only the dataset group having been polled. -/
theorem async_polled_before_use_except_datasets :
    pollsPrecedeCreations prereqPollsAmended [] notebookSteps = true := by
  decide

/-- One row of the item metadata table loaded from products.yaml, with
the columns the notebook selects. -/
structure ItemRow where
  id : String
  name : String
  category : String
  style : String
  featured : String
deriving Repr, DecidableEq

/-- The helper get_item_name_from_id: select the rows whose id column
equals item_id, take their name column, and index position 0 of the
values; the none result models the IndexError raised on an empty
selection. -/
def get_item_name_from_id (item_metadata_df : List ItemRow)
    (item_id : String) : Option String :=
  ((item_metadata_df.filter (fun r => r.id == item_id)).map ItemRow.name).head?

/-- C10: get_item_name_from_id is partial across item identifiers: when
some row of the metadata table matches the identifier it returns the name
of the first matching row, and when no row matches it raises — an
IndexError from indexing an empty array, modelled as none — rather than
returning a value, so its callers require every looked-up identifier to
be present in the metadata. -/
theorem get_item_name_first_match_or_raise (df : List ItemRow)
    (item_id : String) :
    (∀ row rest, df.filter (fun r => r.id == item_id) = row :: rest →
      get_item_name_from_id df item_id = some row.name) ∧
    ((∀ r ∈ df, r.id ≠ item_id) → get_item_name_from_id df item_id = none) := by
  constructor
  · intro row rest h
    unfold get_item_name_from_id
    rw [h]
    rfl
  · intro h
    unfold get_item_name_from_id
    have hnil : df.filter (fun r => r.id == item_id) = [] := by
      rw [List.filter_eq_nil_iff]
      intro a ha
      simp [h a ha]
    rw [hnil]
    rfl

theorem get_item_name_first_match_or_raise_witness :
    get_item_name_from_id
      [⟨"item-1", "Apple", "fruit", "basic", "false"⟩] "item-1" = some "Apple" ∧
    get_item_name_from_id
      [⟨"item-1", "Apple", "fruit", "basic", "false"⟩] "item-2" = none :=
  ⟨(get_item_name_first_match_or_raise
      [⟨"item-1", "Apple", "fruit", "basic", "false"⟩] "item-1").1
      ⟨"item-1", "Apple", "fruit", "basic", "false"⟩ [] (by decide),
   (get_item_name_first_match_or_raise
      [⟨"item-1", "Apple", "fruit", "basic", "false"⟩] "item-2").2 (by decide)⟩

end ImmersionDay
